import Mathlib

/-!
Verification of the protocol engine of the usb-can-tauri repository's Python
scripts: the vehicle-control payload codec
(python-test/final_convert.py, python-test/reverse_parse.py,
python-test/parse_data.py), the streaming frame synchronizer
(python-test/loop-c.py), and the adapter configuration command
(python-test/send.py, python-test/check-config.py, python-test/receive.py).

Machine integers are modelled as Nat (unsigned) and Int (signed) with explicit
reductions modulo powers of two where the Python code packs fixed-width values.
Fallible Python code (struct.pack range errors, raised ValueError, IndexError
caught by a surrounding except) is modelled with Option.
-/

/-! ## Hex-string formatting helpers

Python's f-string `f'{b:02X}'` and `bytes.hex().upper()` produce two uppercase
hex digits per byte; these helpers reproduce that for byte values `b < 256`. -/

/-- One uppercase hexadecimal digit for `n < 16` (as produced by `%X`). -/
def hexDigit (n : Nat) : Char :=
  if n < 10 then Char.ofNat (48 + n) else Char.ofNat (55 + n)

/-- Two uppercase hexadecimal digits for a byte, as `f'{b:02X}'` prints it. -/
def hexByte (b : Nat) : String :=
  String.mk [hexDigit (b / 16 % 16), hexDigit (b % 16)]

/-- Model of Python `data.hex().upper()` on a byte sequence. -/
def bytesHexUpper (l : List Nat) : String :=
  String.join (l.map hexByte)

/-- Model of `' '.flatten(f'{b:02X}' for b in data)`. -/
def bytesHexSpaced (l : List Nat) : String :=
  String.intercalate " " (l.map hexByte)

/-! ## Vehicle-control payload codec -/

/-- The BCC loop of `build_vehicle_control_data`:
`bcc = 0; for byte in payload: bcc ^= byte`. -/
def bcc (payload : List Nat) : Nat :=
  payload.foldl (fun acc byte => acc ^^^ byte) 0

/-- Model of `struct.unpack('>h', bytes([hi, lo]))`: interpret a 16-bit
big-endian unsigned value as a signed two's-complement integer. -/
def toI16 (n : Nat) : Int :=
  if n < 32768 then (n : Int) else (n : Int) - 65536

/-- The encoder `build_vehicle_control_data` from
python-test/final_convert.py (the identical function also appears in
python-test/reverse_parse.py).  It returns the 8 payload bytes
(`final_data` in the source; the source finally formats them as a
space-separated hex string, see `build_vehicle_control_data_hex`).
`struct.pack('<I', raw_u32)` raises for `raw_u32 ≥ 2^32` and
`struct.pack('>h', steering_angle_raw)` raises outside the i16 range;
both failure modes are modelled by `none`. -/
def build_vehicle_control_data (gear linear_velocity_mms : Nat)
    (steering_angle_raw : Int) (alive_counter : Nat) : Option (List Nat) :=
  -- 原始 u32 = (速度值 << 4) | 档位值
  let speed_shifted := linear_velocity_mms <<< 4
  let raw_u32 := speed_shifted ||| (gear &&& 0x0F)
  if raw_u32 < 4294967296 ∧ -32768 ≤ steering_angle_raw ∧ steering_angle_raw ≤ 32767 then
    -- 转换为 4 字节的小端序，只取前 3 字节
    let data0 := raw_u32 &&& 0xFF
    let data1 := (raw_u32 >>> 8) &&& 0xFF
    let data2 := (raw_u32 >>> 16) &&& 0xFF
    -- struct.pack('>h', steering_angle_raw): two's-complement big-endian bytes
    let angle_u16 := (steering_angle_raw % 65536).toNat
    let high_byte := angle_u16 >>> 8
    let low_byte := angle_u16 &&& 0xFF
    -- 重构 data[4], data[3], data[2]
    let data4 := (high_byte >>> 4) &&& 0x0F
    let data3 := ((high_byte &&& 0x0F) <<< 4) ||| (low_byte >>> 4)
    let data2m := data2 ||| ((low_byte &&& 0x0F) <<< 4)
    -- 填充 data[5] 和 data[6]
    let data5 := 0x00
    let data6 := alive_counter &&& 0xFF
    let payload := [data0, data1, data2m, data3, data4, data5, data6]
    some (payload ++ [bcc payload])
  else
    none

/-- The hex string actually returned by the Python `build_vehicle_control_data`. -/
def build_vehicle_control_data_hex (gear linear_velocity_mms : Nat)
    (steering_angle_raw : Int) (alive_counter : Nat) : Option String :=
  (build_vehicle_control_data gear linear_velocity_mms steering_angle_raw
    alive_counter).map bytesHexSpaced

/-- The gear-name lookup dictionary in `parse_vehicle_control_data`. -/
def gearName (gear_raw : Nat) : String :=
  match gear_raw with
  | 0x00 => "disable"
  | 0x01 => "P (Parking)"
  | 0x02 => "R (Reverse)"
  | 0x03 => "N (Neutral)"
  | 0x04 => "D (Drive)"
  | _ => "Unknown"

/-- The integer-valued fields of the dict returned by
`parse_vehicle_control_data` (python-test/parse_data.py).  The source also
returns the floating-point display conversions `linear_velocity_mps`,
`steering_angle_deg` and `steering_angle_rad` (pure scalings of the integer
fields by 1/1000, 0.01 and pi/180); those floats are omitted here.  Note the
dict has no alive-counter field. -/
structure VehicleControlParse where
  data_hex : String
  gear_raw : Nat
  gear_name : String
  linear_velocity_mms : Nat
  steering_angle_raw : Int
deriving DecidableEq

/-- The decoder `parse_vehicle_control_data` from python-test/parse_data.py.
The source raises ValueError exactly when `len(data) < 8` (the message reads
"length must be at least 8 bytes"); that is modelled by `none`.  The
`struct.pack('BB', high_byte, low_byte)` call cannot fail: both arguments are
assembled from 4-bit fields and are below 256. -/
def parse_vehicle_control_data (data : List Nat) : Option VehicleControlParse :=
  if data.length < 8 then none
  else
    -- 0. 解析档位 (data[0]的低4位)
    let gear_raw := data.getD 0 0 &&& 0x0F
    -- 1. struct.unpack('<I', data[0:3] + b'\x00')
    let speed_raw_u32 := data.getD 0 0 ||| (data.getD 1 0 <<< 8) ||| (data.getD 2 0 <<< 16)
    let linear_velocity_mms := (speed_raw_u32 &&& 0x0FFFF0) >>> 4
    -- 2. 解析转向角 (data[2-4]的位域交叉重构, 16位补码)
    let high_byte := ((data.getD 4 0 &&& 0x0F) <<< 4) ||| ((data.getD 3 0 >>> 4) &&& 0x0F)
    let low_byte := ((data.getD 3 0 &&& 0x0F) <<< 4) ||| ((data.getD 2 0 >>> 4) &&& 0x0F)
    let steering_angle_raw := toI16 ((high_byte <<< 8) ||| low_byte)
    some {
      data_hex := bytesHexUpper data
      gear_raw := gear_raw
      gear_name := gearName gear_raw
      linear_velocity_mms := linear_velocity_mms
      steering_angle_raw := steering_angle_raw
    }

/-- Modelled from the spec: `verify_checksum(frame) -> bool` is named by the
specification (§4.4) but implemented nowhere under src/; per the spec it
checks the 8-byte payload with "the same XOR rule" as the encoder's BCC:
byte 7 must equal the XOR of bytes 0 through 6. -/
def verify_checksum (frame : List Nat) : Bool :=
  frame.length == 8 && bcc (frame.take 7) == frame.getD 7 0

/-! ## Streaming frame synchronizer / parser (python-test/loop-c.py) -/

/-- The frame length computed by `custom_receiver`: `len_val + 3 + 2` for a
standard frame, `len_val + 5 + 2` for an extended frame, from the control
byte. -/
def frameLen (ctrl : Nat) : Nat :=
  if ctrl &&& 0x20 = 0 then (ctrl &&& 0x0F) + 3 + 2 else (ctrl &&& 0x0F) + 5 + 2

/-- The inner `while len(buffer) >= 2` loop of `custom_receiver`
(python-test/loop-c.py): repeatedly look for a frame header at the front of
the buffer; on a valid header either extract one complete frame window (if
enough bytes are buffered) or stop and keep the buffer; on an invalid header
discard exactly one byte (`buffer.pop(0)`).  Returns the extracted frame
windows (in order, each passed to `parse_can_frame` by the source) and the
leftover buffer. -/
def drainBuffer : List Nat → List (List Nat) × List Nat
  | [] => ([], [])
  | [b] => ([], [b])
  | b0 :: b1 :: rest =>
    if b0 = 0xAA ∧ b1 &&& 0xC0 = 0xC0 then
      if 2 + rest.length ≥ frameLen b1 then
        let out := drainBuffer ((b0 :: b1 :: rest).drop (frameLen b1))
        ((b0 :: b1 :: rest).take (frameLen b1) :: out.1, out.2)
      else
        -- 数据不完整，等待更多数据
        ([], b0 :: b1 :: rest)
    else
      -- 帧头不匹配，丢弃第一个字节
      drainBuffer (b1 :: rest)
termination_by l => l.length
decreasing_by
  · simp only [List.length_drop, List.length_cons]
    unfold frameLen
    split <;> omega
  · simp

/-- The outer read loop of `custom_receiver`: each serial read appends a chunk
to the retained buffer and then drains it.  Returns all frame windows emitted
over the whole run together with the final leftover buffer. -/
def custom_receiver (chunks : List (List Nat)) : List (List Nat) × List Nat :=
  chunks.foldl
    (fun st chunk =>
      let out := drainBuffer (st.2 ++ chunk)
      (st.1 ++ out.1, out.2))
    ([], [])

/-- A decoded CAN frame as printed by `parse_can_frame`:
frame type (standard/extended), frame format (data/remote), identifier and
data bytes. -/
structure CanFrame where
  is_extended : Bool
  is_remote : Bool
  id : Nat
  data : List Nat
deriving DecidableEq

/-- The frame decoder `parse_can_frame` from python-test/loop-c.py.  `none`
models the source's silent returns: window shorter than 2 bytes, invalid
header, invalid end marker, and the IndexError (window too short for the
identifier bytes) swallowed by the surrounding `except`. -/
def parse_can_frame (frame_data : List Nat) : Option CanFrame :=
  if frame_data.length < 2 then none
  else if frame_data.getD 0 0 = 0xAA ∧ frame_data.getD 1 0 &&& 0xC0 = 0xC0 then
    let len_val := frame_data.getD 1 0 &&& 0x0F
    let is_remote := if frame_data.getD 1 0 &&& 0x10 = 0 then false else true
    -- 检查帧结束符
    if frame_data.getLast? = some 0x55 then
      if frame_data.getD 1 0 &&& 0x20 = 0 then
        -- Standard Frame: id little-endian from bytes 2..3, data from byte 4
        if frame_data.length < 4 then none
        else
          some {
            is_extended := false
            is_remote := is_remote
            id := (frame_data.getD 3 0 <<< 8) ||| frame_data.getD 2 0
            data := (frame_data.drop 4).take len_val
          }
      else
        -- Extended Frame: id little-endian from bytes 2..5, data from byte 6
        if frame_data.length < 6 then none
        else
          some {
            is_extended := true
            is_remote := is_remote
            id := (frame_data.getD 5 0 <<< 24) ||| (frame_data.getD 4 0 <<< 16) |||
                  (frame_data.getD 3 0 <<< 8) ||| frame_data.getD 2 0
            data := (frame_data.drop 6).take len_val
          }
    else none
  else none

/-- Modelled from the spec: `build_data_frame(id, is_extended, is_remote,
data)` is specified in §4.3 but no general builder exists under src/ (the
scripts hand-assemble concrete frames, e.g. `test_frame` and
`send_can_id_data`): header `0xAA`, control byte
`0xC0 | (is_extended<<5) | (is_remote<<4) | (len(data)&0x0F)`, identifier
little-endian in 2 or 4 bytes, the data bytes, terminator `0x55`; fails with
InvalidPayloadLength unless `0 <= len(data) <= 8`. -/
def build_data_frame (ident : Nat) (is_extended is_remote : Bool)
    (data : List Nat) : Option (List Nat) :=
  if data.length ≤ 8 then
    let ctrl := 0xC0 ||| ((cond is_extended 1 0) <<< 5) |||
      ((cond is_remote 1 0) <<< 4) ||| (data.length &&& 0x0F)
    let idBytes :=
      if is_extended then
        [ident &&& 0xFF, (ident >>> 8) &&& 0xFF, (ident >>> 16) &&& 0xFF,
         (ident >>> 24) &&& 0xFF]
      else
        [ident &&& 0xFF, (ident >>> 8) &&& 0xFF]
    some (0xAA :: ctrl :: idBytes ++ data ++ [0x55])
  else
    none

/-! ## Adapter configuration command -/

/-- `calculate_checksum` from python-test/send.py (and, identically, from
python-test/receive.py): the unsigned sum of all bytes from index 2 on,
reduced modulo 256 via `& 0xff`. -/
def calculate_checksum (data : List Nat) : Nat :=
  (data.drop 2).sum &&& 0xFF

/-- The 19-byte configuration body `set_can_baudrate` from
python-test/send.py: header `AA 55`, protocol mode 0x12 (variable-length),
bitrate code 0x03 (500 kbps), frame type 0x02 (extended), 4 filter-id bytes,
4 mask-id bytes, CAN mode 0x00 (normal), auto-retransmit 0x00, and 4 spare
zero bytes. -/
def set_can_baudrate : List Nat :=
  [0xAA, 0x55, 0x12, 0x03, 0x02,
   0x00, 0x00, 0x00, 0x00,
   0x00, 0x00, 0x00, 0x00,
   0x00, 0x00,
   0x00, 0x00, 0x00, 0x00]

/-- The config command as send.py serializes it: the body with the checksum
appended. -/
def send_config_frame : List Nat :=
  set_can_baudrate ++ [calculate_checksum set_can_baudrate]

/-- The configuration list from python-test/check-config.py
(`check_configuration`), transcribed byte for byte: note it contains FIVE
zero bytes after the first five fixed bytes (one more than the documented
four filter-id bytes), so its CAN-mode byte 0x02 sits at index 14 and the
list already has 20 entries before the checksum is appended. -/
def checkcfg_baudrate : List Nat :=
  [0xAA, 0x55, 0x12, 0x03, 0x02,
   0x00, 0x00, 0x00, 0x00, 0x00,
   0x00, 0x00, 0x00, 0x00,
   0x02,
   0x00, 0x00, 0x00, 0x00, 0x00]

/-- The command actually sent by `check_configuration`:
`sum(set_can_baudrate[2:]) & 0xff` appended to the list above. -/
def checkcfg_frame : List Nat :=
  checkcfg_baudrate ++ [calculate_checksum checkcfg_baudrate]

/-- The general shape of the 20-byte configuration command, with the field
layout documented in send.py's comments (§4.3 of the spec): two header bytes,
a 17-byte body (protocol mode, bitrate code, frame type, 4-byte filter id,
4-byte mask id, CAN mode, auto-retransmit, 4 reserved zero bytes) and the
trailing `calculate_checksum` byte. -/
def build_config_command (protocol_mode bitrate_code frame_type
    f1 f2 f3 f4 m1 m2 m3 m4 can_mode auto_retransmit : Nat) : List Nat :=
  let body := [0xAA, 0x55, protocol_mode, bitrate_code, frame_type,
    f1, f2, f3, f4, m1, m2, m3, m4, can_mode, auto_retransmit,
    0x00, 0x00, 0x00, 0x00]
  body ++ [calculate_checksum body]

/-! ## Bit-arithmetic helper lemmas -/

theorem and255 (n : Nat) : n &&& 0xFF = n % 256 := by
  have h := Nat.and_pow_two_sub_one_eq_mod n 8
  norm_num at h
  exact h

theorem and15 (n : Nat) : n &&& 0x0F = n % 16 := by
  have h := Nat.and_pow_two_sub_one_eq_mod n 4
  norm_num at h
  exact h

theorem andFFFF (n : Nat) : n &&& 0xFFFF = n % 65536 := by
  have h := Nat.and_pow_two_sub_one_eq_mod n 16
  norm_num at h
  exact h

theorem shr4 (n : Nat) : n >>> 4 = n / 16 := by
  rw [Nat.shiftRight_eq_div_pow]

theorem shr8 (n : Nat) : n >>> 8 = n / 256 := by
  rw [Nat.shiftRight_eq_div_pow]

theorem shr12 (n : Nat) : n >>> 12 = n / 4096 := by
  rw [Nat.shiftRight_eq_div_pow]

theorem shr16 (n : Nat) : n >>> 16 = n / 65536 := by
  rw [Nat.shiftRight_eq_div_pow]

theorem shr24 (n : Nat) : n >>> 24 = n / 16777216 := by
  rw [Nat.shiftRight_eq_div_pow]

/-- Disjoint bitwise or is addition: shifted value or a small remainder. -/
theorem or_eq_add_shl (k a b : Nat) (hb : b < 2 ^ k) : (a <<< k) ||| b = a <<< k + b := by
  rw [Nat.shiftLeft_eq, Nat.mul_comm a (2 ^ k)]
  exact (Nat.mul_add_lt_is_or hb a).symm

/-- Disjoint bitwise or is addition, small value on the left. -/
theorem or_eq_add_shl' (k a b : Nat) (ha : a < 2 ^ k) : a ||| (b <<< k) = a + b <<< k := by
  rw [Nat.or_comm, or_eq_add_shl k b a ha, Nat.add_comm]

/-- Masking with a left-shifted mask commutes with shifting the value down. -/
theorem and_shl_mask (x m k : Nat) : x &&& (m <<< k) = ((x >>> k) &&& m) <<< k := by
  apply Nat.eq_of_testBit_eq
  intro j
  simp only [Nat.testBit_and, Nat.testBit_shiftLeft, Nat.testBit_shiftRight]
  by_cases h : k ≤ j
  · simp [h, Nat.add_sub_cancel' h, Bool.and_comm]
  · simp [h]

theorem shl_shr_cancel (y k : Nat) : (y <<< k) >>> k = y := by
  rw [Nat.shiftLeft_eq, Nat.shiftRight_eq_div_pow]
  exact Nat.mul_div_cancel y (Nat.two_pow_pos k)

/-- The decoder's speed mask: bits 4..19 extracted and shifted down. -/
theorem and_FFFF0_shr4 (x : Nat) : (x &&& 0x0FFFF0) >>> 4 = x / 16 % 65536 := by
  have hm : (0x0FFFF0 : Nat) = 0xFFFF <<< 4 := by decide
  rw [hm, and_shl_mask, shl_shr_cancel, andFFFF, shr4]

theorem xor_ne_self (x m : Nat) (hm : m ≠ 0) : x ^^^ m ≠ x := by
  intro h
  apply hm
  have h2 : x ^^^ (x ^^^ m) = x ^^^ x := congrArg (fun t => x ^^^ t) h
  rwa [← Nat.xor_assoc, Nat.xor_self, Nat.zero_xor] at h2

theorem xor_byte_lt (x y : Nat) (hx : x < 256) (hy : y < 256) : x ^^^ y < 256 := by
  have hx' : x < 2 ^ 8 := by simpa using hx
  have hy' : y < 2 ^ 8 := by simpa using hy
  simpa using Nat.xor_lt_two_pow hx' hy'

theorem bcc_seven (a b c d e f g : Nat) :
    bcc [a, b, c, d, e, f, g] = a ^^^ b ^^^ c ^^^ d ^^^ e ^^^ f ^^^ g := by
  simp [bcc]

/-! ## Equation lemmas for the receiver loop -/

theorem drainBuffer_nil : drainBuffer [] = ([], []) := by
  simp [drainBuffer]

theorem drainBuffer_one (b : Nat) : drainBuffer [b] = ([], [b]) := by
  simp [drainBuffer]

theorem drainBuffer_valid_long (b0 b1 : Nat) (rest : List Nat)
    (h : b0 = 0xAA ∧ b1 &&& 0xC0 = 0xC0) (h2 : 2 + rest.length ≥ frameLen b1) :
    drainBuffer (b0 :: b1 :: rest) =
      ((b0 :: b1 :: rest).take (frameLen b1) ::
        (drainBuffer ((b0 :: b1 :: rest).drop (frameLen b1))).1,
       (drainBuffer ((b0 :: b1 :: rest).drop (frameLen b1))).2) := by
  rw [drainBuffer]
  rw [if_pos h, if_pos h2]

theorem drainBuffer_valid_short (b0 b1 : Nat) (rest : List Nat)
    (h : b0 = 0xAA ∧ b1 &&& 0xC0 = 0xC0) (h2 : ¬ 2 + rest.length ≥ frameLen b1) :
    drainBuffer (b0 :: b1 :: rest) = ([], b0 :: b1 :: rest) := by
  rw [drainBuffer]
  rw [if_pos h, if_neg h2]

theorem drainBuffer_invalid (b0 b1 : Nat) (rest : List Nat)
    (h : ¬(b0 = 0xAA ∧ b1 &&& 0xC0 = 0xC0)) :
    drainBuffer (b0 :: b1 :: rest) = drainBuffer (b1 :: rest) := by
  rw [drainBuffer]
  rw [if_neg h]

/-! ## Structural lemmas for the receiver loop -/

/-- Draining the concatenation of two byte batches first drains the left
batch, then drains its leftover with the right batch appended. -/
theorem drainBuffer_append (a b : List Nat) :
    drainBuffer (a ++ b) =
      ((drainBuffer a).1 ++ (drainBuffer ((drainBuffer a).2 ++ b)).1,
       (drainBuffer ((drainBuffer a).2 ++ b)).2) := by
  induction a using drainBuffer.induct with
  | case1 =>
    simp [drainBuffer_nil]
  | case2 x =>
    simp [drainBuffer_one]
  | case3 b0 b1 rest h h2 ih =>
    have hfl : frameLen b1 ≤ 2 + rest.length := h2
    rw [drainBuffer_valid_long b0 b1 rest h h2]
    have hcons : (b0 :: b1 :: rest) ++ b = b0 :: b1 :: (rest ++ b) := by simp
    have h2b : 2 + (rest ++ b).length ≥ frameLen b1 := by
      simp only [List.length_append]
      omega
    rw [hcons, drainBuffer_valid_long b0 b1 (rest ++ b) h h2b]
    have hlen : frameLen b1 ≤ (b0 :: b1 :: rest).length := by
      simp only [List.length_cons]
      omega
    have htake : (b0 :: b1 :: (rest ++ b)).take (frameLen b1) =
        (b0 :: b1 :: rest).take (frameLen b1) := by
      have := @List.take_append_of_le_length _ (b0 :: b1 :: rest) b (frameLen b1) hlen
      simpa using this
    have hdrop : (b0 :: b1 :: (rest ++ b)).drop (frameLen b1) =
        (b0 :: b1 :: rest).drop (frameLen b1) ++ b := by
      have := @List.drop_append_of_le_length _ (b0 :: b1 :: rest) b (frameLen b1) hlen
      simpa using this
    rw [htake, hdrop, ih]
    simp
  | case4 b0 b1 rest h h2 =>
    rw [drainBuffer_valid_short b0 b1 rest h h2]
    simp
  | case5 b0 b1 rest h ih =>
    rw [drainBuffer_invalid b0 b1 rest h]
    have hcons : (b0 :: b1 :: rest) ++ b = b0 :: b1 :: (rest ++ b) := by simp
    rw [hcons, drainBuffer_invalid b0 b1 (rest ++ b) h]
    exact ih

/-- The leftover buffer of a drain is stuck: draining it again emits nothing. -/
theorem drainBuffer_residue (l : List Nat) :
    drainBuffer (drainBuffer l).2 = ([], (drainBuffer l).2) := by
  induction l using drainBuffer.induct with
  | case1 => simp [drainBuffer_nil]
  | case2 x => simp [drainBuffer_nil, drainBuffer_one]
  | case3 b0 b1 rest h h2 ih =>
    rw [drainBuffer_valid_long b0 b1 rest h h2]
    exact ih
  | case4 b0 b1 rest h h2 =>
    rw [drainBuffer_valid_short b0 b1 rest h h2]
    exact drainBuffer_valid_short b0 b1 rest h h2
  | case5 b0 b1 rest h ih =>
    rw [drainBuffer_invalid b0 b1 rest h]
    exact ih

/-- Unrolling the receiver's fold: starting from already-emitted frames and a
stuck buffer, processing the remaining chunks emits exactly the frames of the
drained concatenation. -/
theorem custom_receiver_foldl (chunks : List (List Nat)) (out : List (List Nat))
    (buf : List Nat) (h : drainBuffer buf = ([], buf)) :
    chunks.foldl
      (fun st chunk =>
        let o := drainBuffer (st.2 ++ chunk)
        (st.1 ++ o.1, o.2))
      (out, buf) =
      (out ++ (drainBuffer (buf ++ chunks.flatten)).1,
       (drainBuffer (buf ++ chunks.flatten)).2) := by
  induction chunks generalizing out buf with
  | nil =>
    simp [h]
  | cons c cs ih =>
    simp only [List.foldl_cons, List.flatten_cons]
    rw [ih (out ++ (drainBuffer (buf ++ c)).1) (drainBuffer (buf ++ c)).2
      (drainBuffer_residue (buf ++ c))]
    have hassoc : buf ++ (c ++ cs.flatten) = (buf ++ c) ++ cs.flatten := by simp
    rw [hassoc, drainBuffer_append (buf ++ c) cs.flatten]
    simp

/-! ## Claim theorems: receiver fragmentation and resynchronization -/

/-- Claim C2: for every byte sequence and every way of splitting it into
consecutive chunks, feeding the chunks to the frame parser one call at a time
yields exactly the same emitted frame windows (and the same leftover buffer)
as feeding the whole sequence in a single call: the parser emits every frame
that is fully available and keeps any incomplete suffix buffered. -/
theorem receiver_fragmentation_invariance (chunks : List (List Nat)) :
    custom_receiver chunks = drainBuffer chunks.flatten := by
  unfold custom_receiver
  rw [custom_receiver_foldl chunks [] [] drainBuffer_nil]
  simp

/-- Claim C3: a spurious byte before the scan position is dropped without
affecting the emitted frames: prefixing the stream with the corrupt header
byte 0xAB changes no emitted frame; in general, whenever the first buffered
byte is not 0xAA, or the following control byte's top two bits are not 11,
the parser discards exactly one byte and rescans. -/
theorem receiver_resynchronization :
    (∀ s : List Nat, (drainBuffer (0xAB :: s)).1 = (drainBuffer s).1) ∧
    (∀ (b0 b1 : Nat) (rest : List Nat), ¬(b0 = 0xAA ∧ b1 &&& 0xC0 = 0xC0) →
      drainBuffer (b0 :: b1 :: rest) = drainBuffer (b1 :: rest)) := by
  constructor
  · intro s
    match s with
    | [] => simp [drainBuffer_nil, drainBuffer_one]
    | b :: t =>
      rw [drainBuffer_invalid 0xAB b t (by intro hc; exact absurd hc.1 (by decide))]
  · intro b0 b1 rest h
    exact drainBuffer_invalid b0 b1 rest h

/-- Witness for C3 at a concrete corrupted stream. -/
theorem receiver_resynchronization_witness :
    (drainBuffer [0xAB, 0xAA, 0xC0, 0xFF, 0xFF, 0x55]).1 =
      (drainBuffer [0xAA, 0xC0, 0xFF, 0xFF, 0x55]).1 ∧
    ¬((0xAB : Nat) = 0xAA ∧ (0xAA : Nat) &&& 0xC0 = 0xC0) ∧
    drainBuffer [0xAB, 0xAA, 0xC0, 0xFF, 0xFF, 0x55] =
      drainBuffer [0xAA, 0xC0, 0xFF, 0xFF, 0x55] :=
  ⟨receiver_resynchronization.1 [0xAA, 0xC0, 0xFF, 0xFF, 0x55], by decide,
   receiver_resynchronization.2 0xAB 0xAA [0xC0, 0xFF, 0xFF, 0x55] (by decide)⟩

/-! ## Claim theorems: vehicle codec golden vector and length guard -/

/-- Claim C8: `build_vehicle_control_data(gear=0x04, linear_velocity_mms=3000,
steering_angle_raw=-95, alive_counter=0)` produces exactly the payload bytes
`84 BB 10 FA 0F 00 00 DA` (and the source's hex-string rendering thereof,
which is also the constant `hex_data` decoded at the bottom of
parse_data.py). -/
theorem vehicle_control_golden_vector :
    build_vehicle_control_data 0x04 3000 (-95) 0 =
      some [0x84, 0xBB, 0x10, 0xFA, 0x0F, 0x00, 0x00, 0xDA] ∧
    build_vehicle_control_data_hex 0x04 3000 (-95) 0 =
      some "84 BB 10 FA 0F 00 00 DA" ∧
    bytesHexUpper [0x84, 0xBB, 0x10, 0xFA, 0x0F, 0x00, 0x00, 0xDA] =
      "84BB10FA0F0000DA" := by
  refine ⟨by decide, by decide, by decide⟩

/-- Claim C9 (amended): the decoder `parse_vehicle_control_data` fails exactly
when the input is SHORTER than 8 bytes (the raised ValueError demands "at
least 8 bytes"); every input of length 8 or more succeeds with a defined
result — in particular inputs longer than 8 bytes are accepted, contrary to
the claim's "if and only if the length is not 8". -/
theorem vehicle_decoder_length_guard (data : List Nat) :
    parse_vehicle_control_data data = none ↔ data.length < 8 := by
  by_cases h : data.length < 8 <;> simp [parse_vehicle_control_data, h]

/-- Counterexample to claim C9 as stated: a 9-byte input does not fail. -/
theorem vehicle_decoder_length_counterexample :
    (List.replicate 9 (0 : Nat)).length ≠ 8 ∧
    (parse_vehicle_control_data (List.replicate 9 0)).isSome = true := by
  refine ⟨by decide, by decide⟩

/-! ## Claim theorem: adapter configuration command -/

/-- Claim C6: the configuration command serialized by send.py (and by the
general field layout documented there) is exactly 20 bytes — header 0xAA 0x55,
17 body bytes, and a trailing checksum equal to the sum modulo 256 of every
byte from index 2 onward.  However the variant list hard-coded in
check-config.py carries one extra zero (five bytes where the four filter-id
bytes belong), so `check_configuration` actually serializes 21 bytes with its
CAN-mode byte at offset 14: that script deviates from the documented format. -/
theorem config_command_format :
    (∀ pm bc ft f1 f2 f3 f4 m1 m2 m3 m4 cm ar : Nat,
      (build_config_command pm bc ft f1 f2 f3 f4 m1 m2 m3 m4 cm ar).length = 20 ∧
      (build_config_command pm bc ft f1 f2 f3 f4 m1 m2 m3 m4 cm ar).take 2 =
        [0xAA, 0x55] ∧
      (build_config_command pm bc ft f1 f2 f3 f4 m1 m2 m3 m4 cm ar).getLast? =
        some (([pm, bc, ft, f1, f2, f3, f4, m1, m2, m3, m4, cm, ar,
                0x00, 0x00, 0x00, 0x00].sum) % 256)) ∧
    send_config_frame = build_config_command 0x12 0x03 0x02 0 0 0 0 0 0 0 0 0 0 ∧
    send_config_frame.length = 20 ∧
    checkcfg_frame.length = 21 := by
  refine ⟨fun pm bc ft f1 f2 f3 f4 m1 m2 m3 m4 cm ar => ⟨?_, ?_, ?_⟩,
    by decide, by decide, by decide⟩
  · simp [build_config_command, calculate_checksum]
  · simp [build_config_command]
  · rw [build_config_command]
    rw [List.getLast?_concat]
    rw [calculate_checksum, and255]
    simp

/-! ## Shape of frame windows emitted by the receiver -/

theorem getD_mem (l : List Nat) (i : Nat) (h : i < l.length) : l.getD i 0 ∈ l := by
  rw [List.getD_eq_getElem?_getD, List.getElem?_eq_getElem h]
  exact List.getElem_mem h

/-- Every frame window emitted by the drain loop starts with the header 0xAA,
carries a control byte with top two bits 11, has length exactly `frameLen` of
its control byte, and consists of bytes of the input stream. -/
theorem drainBuffer_window_shape (s : List Nat) :
    ∀ w ∈ (drainBuffer s).1, ∃ b1 tail, w = 0xAA :: b1 :: tail ∧
      b1 &&& 0xC0 = 0xC0 ∧ w.length = frameLen b1 ∧ ∀ x ∈ w, x ∈ s := by
  induction s using drainBuffer.induct with
  | case1 => simp [drainBuffer_nil]
  | case2 b => simp [drainBuffer_one]
  | case3 b0 b1 rest h h2 ih =>
    rw [drainBuffer_valid_long b0 b1 rest h h2]
    intro w hw
    rcases List.mem_cons.mp hw with hw | hw
    · -- the freshly extracted window
      subst hw
      have hge2 : 2 ≤ frameLen b1 := by
        unfold frameLen
        split <;> omega
      obtain ⟨fl2, hfl2⟩ : ∃ fl2, frameLen b1 = fl2 + 2 := ⟨frameLen b1 - 2, by omega⟩
      refine ⟨b1, rest.take fl2, ?_, h.2, ?_, ?_⟩
      · rw [h.1, hfl2]
        simp [List.take_succ_cons]
      · simp only [List.length_take, List.length_cons]
        omega
      · intro x hx
        exact List.mem_of_mem_take hx
    · -- a window of the recursive drain of the dropped buffer
      obtain ⟨c1, tail, hshape, hc, hlen, hmem⟩ := ih w hw
      exact ⟨c1, tail, hshape, hc, hlen,
        fun x hx => List.mem_of_mem_drop (hmem x hx)⟩
  | case4 b0 b1 rest h h2 =>
    rw [drainBuffer_valid_short b0 b1 rest h h2]
    simp
  | case5 b0 b1 rest h ih =>
    rw [drainBuffer_invalid b0 b1 rest h]
    intro w hw
    obtain ⟨c1, tail, hshape, hc, hlen, hmem⟩ := ih w hw
    exact ⟨c1, tail, hshape, hc, hlen, fun x hx => List.mem_cons_of_mem b0 (hmem x hx)⟩

/-! ## Claim theorem: invariants of parsed frames -/

/-- Claim C7 (amended): every CanFrame obtained by running `parse_can_frame`
on a window emitted by the receiver loop over a byte stream (all stream
values below 256) has data length equal to the length nibble of its control
byte, and an identifier below 2^16 for standard frames and below 2^32 for
extended frames.  The identifier is NOT restricted to 11 (resp. 29) bits:
the parser assembles it from 2 (resp. 4) raw bytes with no mask. -/
theorem parsed_frame_invariant (s : List Nat) (hbytes : ∀ x ∈ s, x < 256) :
    ∀ w ∈ (drainBuffer s).1, ∀ cf : CanFrame, parse_can_frame w = some cf →
      cf.data.length = w.getD 1 0 &&& 0x0F ∧
      (cf.is_extended = false → cf.id < 65536) ∧
      (cf.is_extended = true → cf.id < 4294967296) := by
  intro w hw cf hparse
  obtain ⟨b1, tail, hshape, hc, hlen, hmem⟩ := drainBuffer_window_shape s w hw
  subst hshape
  have hfl5 : 5 ≤ frameLen b1 := by
    unfold frameLen
    split <;> omega
  have htail : tail.length = frameLen b1 - 2 := by
    simp only [List.length_cons] at hlen
    omega
  have hnib : b1 &&& 0x0F < 16 := by
    rw [and15]
    omega
  simp only [parse_can_frame, List.getD_cons_zero, List.getD_cons_succ] at hparse
  rw [if_neg (by simp only [List.length_cons]; omega)] at hparse
  rw [if_pos ⟨by trivial, hc⟩] at hparse
  by_cases hend : (0xAA :: b1 :: tail).getLast? = some 0x55
  · rw [if_pos hend] at hparse
    by_cases h20 : b1 &&& 0x20 = 0
    · -- standard frame
      have hflval : frameLen b1 = (b1 &&& 0x0F) + 5 := by
        unfold frameLen
        rw [if_pos h20]
      rw [if_pos h20] at hparse
      rw [if_neg (by simp only [List.length_cons]; omega)] at hparse
      obtain rfl : cf = ⟨false, if b1 &&& 0x10 = 0 then false else true,
          (tail.getD 1 0 <<< 8) ||| tail.getD 0 0,
          ((0xAA :: b1 :: tail).drop 4).take (b1 &&& 0x0F)⟩ :=
        (Option.some.injEq _ _).mp hparse.symm
      refine ⟨?_, fun _ => ?_, fun hcontra => by simp at hcontra⟩
      · simp only [List.getD_cons_succ, List.getD_cons_zero, List.drop_succ_cons,
          List.drop_zero, List.length_take, List.length_drop]
        omega
      · have h2m : tail.getD 0 0 < 256 := hbytes _ (hmem _
          (List.mem_cons_of_mem _ (List.mem_cons_of_mem _ (getD_mem tail 0 (by omega)))))
        have h3m : tail.getD 1 0 < 256 := hbytes _ (hmem _
          (List.mem_cons_of_mem _ (List.mem_cons_of_mem _ (getD_mem tail 1 (by omega)))))
        have h16 : (65536 : Nat) = 2 ^ 16 := by norm_num
        rw [h16]
        apply Nat.or_lt_two_pow
        · rw [Nat.shiftLeft_eq]
          omega
        · omega
    · -- extended frame
      have hflval : frameLen b1 = (b1 &&& 0x0F) + 7 := by
        unfold frameLen
        rw [if_neg h20]
      rw [if_neg h20] at hparse
      rw [if_neg (by simp only [List.length_cons]; omega)] at hparse
      obtain rfl : cf = ⟨true, if b1 &&& 0x10 = 0 then false else true,
          (tail.getD 3 0 <<< 24) ||| (tail.getD 2 0 <<< 16) |||
            (tail.getD 1 0 <<< 8) ||| tail.getD 0 0,
          ((0xAA :: b1 :: tail).drop 6).take (b1 &&& 0x0F)⟩ :=
        (Option.some.injEq _ _).mp hparse.symm
      refine ⟨?_, fun hcontra => by simp at hcontra, fun _ => ?_⟩
      · simp only [List.getD_cons_succ, List.getD_cons_zero, List.drop_succ_cons,
          List.drop_zero, List.length_take, List.length_drop]
        omega
      · have h2m : tail.getD 0 0 < 256 := hbytes _ (hmem _
          (List.mem_cons_of_mem _ (List.mem_cons_of_mem _ (getD_mem tail 0 (by omega)))))
        have h3m : tail.getD 1 0 < 256 := hbytes _ (hmem _
          (List.mem_cons_of_mem _ (List.mem_cons_of_mem _ (getD_mem tail 1 (by omega)))))
        have h4m : tail.getD 2 0 < 256 := hbytes _ (hmem _
          (List.mem_cons_of_mem _ (List.mem_cons_of_mem _ (getD_mem tail 2 (by omega)))))
        have h5m : tail.getD 3 0 < 256 := hbytes _ (hmem _
          (List.mem_cons_of_mem _ (List.mem_cons_of_mem _ (getD_mem tail 3 (by omega)))))
        have h32 : (4294967296 : Nat) = 2 ^ 32 := by norm_num
        rw [h32]
        apply Nat.or_lt_two_pow
        · apply Nat.or_lt_two_pow
          · apply Nat.or_lt_two_pow
            · rw [Nat.shiftLeft_eq]
              omega
            · rw [Nat.shiftLeft_eq]
              omega
          · rw [Nat.shiftLeft_eq]
            omega
        · omega
  · rw [if_neg hend] at hparse
    cases hparse

/-- Witness for C7 at a concrete single-frame stream. -/
theorem parsed_frame_invariant_witness :
    (∀ x ∈ ([0xAA, 0xC1, 0x23, 0x01, 0x77, 0x55] : List Nat), x < 256) ∧
    ([0xAA, 0xC1, 0x23, 0x01, 0x77, 0x55] : List Nat) ∈
      (drainBuffer [0xAA, 0xC1, 0x23, 0x01, 0x77, 0x55]).1 ∧
    (∀ cf : CanFrame,
      parse_can_frame [0xAA, 0xC1, 0x23, 0x01, 0x77, 0x55] = some cf →
      cf.data.length = ([0xAA, 0xC1, 0x23, 0x01, 0x77, 0x55] : List Nat).getD 1 0 &&& 0x0F ∧
      (cf.is_extended = false → cf.id < 65536) ∧
      (cf.is_extended = true → cf.id < 4294967296)) :=
  ⟨by decide, by simp +decide [drainBuffer, frameLen],
   parsed_frame_invariant [0xAA, 0xC1, 0x23, 0x01, 0x77, 0x55] (by decide)
     [0xAA, 0xC1, 0x23, 0x01, 0x77, 0x55] (by simp +decide [drainBuffer, frameLen])⟩

/-- Counterexample to claim C7 as stated: a standard frame whose two raw
identifier bytes are 0xFF 0xFF is emitted by the parser with id 0xFFFF, which
does not fit in 11 bits. -/
theorem parsed_frame_invariant_counterexample :
    drainBuffer [0xAA, 0xC0, 0xFF, 0xFF, 0x55] =
      ([[0xAA, 0xC0, 0xFF, 0xFF, 0x55]], []) ∧
    parse_can_frame [0xAA, 0xC0, 0xFF, 0xFF, 0x55] =
      some ⟨false, false, 0xFFFF, []⟩ ∧
    ¬(0xFFFF : Nat) < 2048 := by
  refine ⟨by simp +decide [drainBuffer, frameLen], by decide, by decide⟩

/-! ## Control-byte arithmetic -/

theorem or_eq_add_of_dvd (k a b : Nat) (ha : 2 ^ k ∣ a) (hb : b < 2 ^ k) :
    a ||| b = a + b := by
  obtain ⟨c, rfl⟩ := ha
  exact (Nat.mul_add_lt_is_or hb c).symm

theorem and3 (n : Nat) : n &&& 0x03 = n % 4 := by
  have h := Nat.and_pow_two_sub_one_eq_mod n 2
  norm_num at h
  exact h

theorem and1 (n : Nat) : n &&& 0x01 = n % 2 := by
  simp

theorem shr5 (n : Nat) : n >>> 5 = n / 32 := by
  rw [Nat.shiftRight_eq_div_pow]

theorem shr6 (n : Nat) : n >>> 6 = n / 64 := by
  rw [Nat.shiftRight_eq_div_pow]

theorem and_C0 (c : Nat) : c &&& 0xC0 = c / 64 % 4 * 64 := by
  have h := and_shl_mask c 3 6
  rw [(by decide : (3 <<< 6 : Nat) = 192)] at h
  rw [h, shr6, and3, Nat.shiftLeft_eq]

theorem and_20 (c : Nat) : c &&& 0x20 = c / 32 % 2 * 32 := by
  have h := and_shl_mask c 1 5
  rw [(by decide : (1 <<< 5 : Nat) = 32)] at h
  rw [h, shr5, and1, Nat.shiftLeft_eq]

theorem and_10 (c : Nat) : c &&& 0x10 = c / 16 % 2 * 16 := by
  have h := and_shl_mask c 1 4
  rw [(by decide : (1 <<< 4 : Nat) = 16)] at h
  rw [h, shr4, and1, Nat.shiftLeft_eq]

/-- Arithmetic form of the control byte assembled by `build_data_frame`. -/
theorem ctrl_eq (e r L : Nat) (he : e ≤ 1) (hr : r ≤ 1) (hL : L < 16) :
    0xC0 ||| (e <<< 5) ||| (r <<< 4) ||| (L &&& 0x0F) =
      192 + 32 * e + 16 * r + L := by
  rw [and15, Nat.mod_eq_of_lt hL]
  rw [Nat.shiftLeft_eq, Nat.shiftLeft_eq]
  rw [or_eq_add_of_dvd 6 192 (e * 2 ^ 5) (by norm_num) (by omega)]
  rw [or_eq_add_of_dvd 5 (192 + e * 2 ^ 5) (r * 2 ^ 4)
    (Nat.dvd_add (by norm_num) (dvd_mul_left _ _)) (by omega)]
  rw [or_eq_add_of_dvd 4 (192 + e * 2 ^ 5 + r * 2 ^ 4) L
    (Nat.dvd_add (Nat.dvd_add ⟨12, by norm_num⟩ ⟨e * 2, by ring⟩) ⟨r, by ring⟩)
    (by omega)]
  omega

/-! ## Claim theorem: data-frame round trip -/

/-- Claim C4: for every identifier within 11 bits (standard) or 29 bits
(extended), both flags, and data of length 0..8, the byte string produced by
`build_data_frame` is consumed by the receiver loop as exactly one window,
and `parse_can_frame` decodes that window to exactly one CanFrame carrying
the same identifier, flags and data. -/
theorem data_frame_roundtrip (ident : Nat) (ext rem : Bool) (data : List Nat)
    (hid : ident < cond ext 536870912 2048) (hlend : data.length ≤ 8) :
    ∃ w, build_data_frame ident ext rem data = some w ∧
      drainBuffer w = ([w], []) ∧
      parse_can_frame w = some ⟨ext, rem, ident, data⟩ := by
  have hr1 : (cond rem 1 0) ≤ 1 := by cases rem <;> simp
  cases ext with
  | false =>
    have hid' : ident < 2048 := by simpa using hid
    simp only [build_data_frame, cond_false]
    rw [if_pos hlend]
    rw [if_neg (by decide : ¬ ((false : Bool) = true))]
    have hc := ctrl_eq 0 (cond rem 1 0) data.length (by omega) hr1 (by omega)
    rw [hc]
    simp only [List.cons_append, List.nil_append]
    have hcC0 : (192 + 32 * 0 + 16 * (cond rem 1 0) + data.length) &&& 0xC0 = 0xC0 := by
      rw [and_C0]; omega
    have h20 : (192 + 32 * 0 + 16 * (cond rem 1 0) + data.length) &&& 0x20 = 0 := by
      rw [and_20]; omega
    have h10 : (192 + 32 * 0 + 16 * (cond rem 1 0) + data.length) &&& 0x10 =
        16 * (cond rem 1 0) := by
      rw [and_10]; omega
    have hnibc : (192 + 32 * 0 + 16 * (cond rem 1 0) + data.length) &&& 0x0F =
        data.length := by
      rw [and15]; omega
    have hflc : frameLen (192 + 32 * 0 + 16 * (cond rem 1 0) + data.length) =
        data.length + 5 := by
      unfold frameLen
      simp only [h20, hnibc]
      rw [if_pos trivial]
    refine ⟨_, rfl, ?_, ?_⟩
    · -- drain emits exactly the one window
      rw [drainBuffer_valid_long 0xAA (192 + 32 * 0 + 16 * (cond rem 1 0) + data.length)
        ((ident &&& 0xFF) :: ((ident >>> 8) &&& 0xFF) :: (data ++ [0x55]))
        ⟨rfl, hcC0⟩
        (by simp only [List.length_cons, List.length_append, List.length_nil]
            rw [hflc]; omega)]
      rw [hflc]
      have hwl : (0xAA :: (192 + 32 * 0 + 16 * (cond rem 1 0) + data.length) ::
          (ident &&& 0xFF) :: ((ident >>> 8) &&& 0xFF) :: (data ++ [0x55])).length =
          data.length + 5 := by
        simp only [List.length_cons, List.length_append, List.length_nil]
      rw [← hwl, List.take_length, List.drop_length, drainBuffer_nil]
    · -- parse recovers the frame
      have hlast : ((0xAA : Nat) :: (192 + 32 * 0 + 16 * (cond rem 1 0) + data.length) ::
          (ident &&& 0xFF) :: ((ident >>> 8) &&& 0xFF) :: (data ++ [0x55])).getLast? =
          some 0x55 := by
        rw [show (0xAA : Nat) :: (192 + 32 * 0 + 16 * (cond rem 1 0) + data.length) ::
          (ident &&& 0xFF) :: ((ident >>> 8) &&& 0xFF) :: (data ++ [0x55]) =
          ((0xAA : Nat) :: (192 + 32 * 0 + 16 * (cond rem 1 0) + data.length) ::
          (ident &&& 0xFF) :: ((ident >>> 8) &&& 0xFF) :: data) ++ [0x55] from by simp]
        exact List.getLast?_concat _
      simp only [parse_can_frame, List.getD_cons_zero, List.getD_cons_succ]
      rw [if_neg (by simp only [List.length_cons]; omega)]
      rw [if_pos ⟨by trivial, hcC0⟩]
      rw [if_pos hlast]
      rw [if_pos h20]
      rw [if_neg (by simp only [List.length_cons]; omega)]
      refine congrArg some ?_
      simp only [CanFrame.mk.injEq]
      refine ⟨by trivial, ?_, ?_, ?_⟩
      · simp only [h10]
        cases rem <;> simp
      · rw [and255, and255, shr8]
        rw [or_eq_add_shl 8 _ _ (by omega), Nat.shiftLeft_eq]
        omega
      · rw [hnibc]
        simp only [List.drop_succ_cons, List.drop_zero]
        exact List.take_left data [0x55]
  | true =>
    have hid' : ident < 536870912 := by simpa using hid
    simp only [build_data_frame, cond_true]
    rw [if_pos hlend]
    rw [if_pos trivial]
    have hc := ctrl_eq 1 (cond rem 1 0) data.length (by omega) hr1 (by omega)
    rw [hc]
    simp only [List.cons_append, List.nil_append]
    have hcC0 : (192 + 32 * 1 + 16 * (cond rem 1 0) + data.length) &&& 0xC0 = 0xC0 := by
      rw [and_C0]; omega
    have h20 : (192 + 32 * 1 + 16 * (cond rem 1 0) + data.length) &&& 0x20 = 32 := by
      rw [and_20]; omega
    have h10 : (192 + 32 * 1 + 16 * (cond rem 1 0) + data.length) &&& 0x10 =
        16 * (cond rem 1 0) := by
      rw [and_10]; omega
    have hnibc : (192 + 32 * 1 + 16 * (cond rem 1 0) + data.length) &&& 0x0F =
        data.length := by
      rw [and15]; omega
    have hflc : frameLen (192 + 32 * 1 + 16 * (cond rem 1 0) + data.length) =
        data.length + 7 := by
      unfold frameLen
      simp only [h20, hnibc]
      rw [if_neg (by omega)]
    refine ⟨_, rfl, ?_, ?_⟩
    · -- drain emits exactly the one window
      rw [drainBuffer_valid_long 0xAA (192 + 32 * 1 + 16 * (cond rem 1 0) + data.length)
        ((ident &&& 0xFF) :: ((ident >>> 8) &&& 0xFF) :: ((ident >>> 16) &&& 0xFF) ::
          ((ident >>> 24) &&& 0xFF) :: (data ++ [0x55]))
        ⟨rfl, hcC0⟩
        (by simp only [List.length_cons, List.length_append, List.length_nil]
            rw [hflc]; omega)]
      rw [hflc]
      have hwl : (0xAA :: (192 + 32 * 1 + 16 * (cond rem 1 0) + data.length) ::
          (ident &&& 0xFF) :: ((ident >>> 8) &&& 0xFF) :: ((ident >>> 16) &&& 0xFF) ::
          ((ident >>> 24) &&& 0xFF) :: (data ++ [0x55])).length =
          data.length + 7 := by
        simp only [List.length_cons, List.length_append, List.length_nil]
      rw [← hwl, List.take_length, List.drop_length, drainBuffer_nil]
    · -- parse recovers the frame
      have hlast : ((0xAA : Nat) :: (192 + 32 * 1 + 16 * (cond rem 1 0) + data.length) ::
          (ident &&& 0xFF) :: ((ident >>> 8) &&& 0xFF) :: ((ident >>> 16) &&& 0xFF) ::
          ((ident >>> 24) &&& 0xFF) :: (data ++ [0x55])).getLast? =
          some 0x55 := by
        rw [show (0xAA : Nat) :: (192 + 32 * 1 + 16 * (cond rem 1 0) + data.length) ::
          (ident &&& 0xFF) :: ((ident >>> 8) &&& 0xFF) :: ((ident >>> 16) &&& 0xFF) ::
          ((ident >>> 24) &&& 0xFF) :: (data ++ [0x55]) =
          ((0xAA : Nat) :: (192 + 32 * 1 + 16 * (cond rem 1 0) + data.length) ::
          (ident &&& 0xFF) :: ((ident >>> 8) &&& 0xFF) :: ((ident >>> 16) &&& 0xFF) ::
          ((ident >>> 24) &&& 0xFF) :: data) ++ [0x55] from by simp]
        exact List.getLast?_concat _
      simp only [parse_can_frame, List.getD_cons_zero, List.getD_cons_succ]
      rw [if_neg (by simp only [List.length_cons]; omega)]
      rw [if_pos ⟨by trivial, hcC0⟩]
      rw [if_pos hlast]
      rw [if_neg (by simp only [h20]; omega)]
      rw [if_neg (by simp only [List.length_cons]; omega)]
      refine congrArg some ?_
      simp only [CanFrame.mk.injEq]
      refine ⟨by trivial, ?_, ?_, ?_⟩
      · simp only [h10]
        cases rem <;> simp
      · rw [and255, and255, and255, and255, shr8, shr16, shr24]
        rw [or_eq_add_of_dvd 24 ((ident / 16777216 % 256) <<< 24)
          ((ident / 65536 % 256) <<< 16)
          (by rw [Nat.shiftLeft_eq]; exact dvd_mul_left _ _)
          (by rw [Nat.shiftLeft_eq]; omega)]
        rw [or_eq_add_of_dvd 16
          ((ident / 16777216 % 256) <<< 24 + (ident / 65536 % 256) <<< 16)
          ((ident / 256 % 256) <<< 8)
          (Nat.dvd_add
            (by rw [Nat.shiftLeft_eq]; exact ⟨ident / 16777216 % 256 * 2 ^ 8, by ring⟩)
            (by rw [Nat.shiftLeft_eq]; exact dvd_mul_left _ _))
          (by rw [Nat.shiftLeft_eq]; omega)]
        rw [or_eq_add_of_dvd 8
          ((ident / 16777216 % 256) <<< 24 + (ident / 65536 % 256) <<< 16 +
            (ident / 256 % 256) <<< 8)
          (ident % 256)
          (Nat.dvd_add (Nat.dvd_add
            (by rw [Nat.shiftLeft_eq]; exact ⟨ident / 16777216 % 256 * 2 ^ 16, by ring⟩)
            (by rw [Nat.shiftLeft_eq]; exact ⟨ident / 65536 % 256 * 2 ^ 8, by ring⟩))
            (by rw [Nat.shiftLeft_eq]; exact dvd_mul_left _ _))
          (by omega)]
        simp only [Nat.shiftLeft_eq]
        omega
      · rw [hnibc]
        simp only [List.drop_succ_cons, List.drop_zero]
        exact List.take_left data [0x55]

/-- Witness for C4 at a concrete standard remote-flagged frame. -/
theorem data_frame_roundtrip_witness :
    ((0x123 : Nat) < cond false 536870912 2048 ∧ ([0x11, 0x22] : List Nat).length ≤ 8) ∧
    ∃ w, build_data_frame 0x123 false true [0x11, 0x22] = some w ∧
      drainBuffer w = ([w], []) ∧
      parse_can_frame w = some ⟨false, true, 0x123, [0x11, 0x22]⟩ :=
  ⟨⟨by decide, by decide⟩,
   data_frame_roundtrip 0x123 false true [0x11, 0x22] (by decide) (by decide)⟩

/-! ## Claim theorems: vehicle codec round trip, safety and checksum -/
theorem xor_left_comm (a b c : Nat) : a ^^^ (b ^^^ c) = b ^^^ (a ^^^ c) := by
  rw [← Nat.xor_assoc, ← Nat.xor_assoc, Nat.xor_comm a b]

/-- Explicit arithmetic form of the eight bytes produced by the encoder. -/
theorem build_vehicle_bytes (gear v : Nat) (a : Int) (c : Nat)
    (hg : gear ≤ 15) (hv : v ≤ 65535) (ha1 : -32768 ≤ a) (ha2 : a ≤ 32767) :
    build_vehicle_control_data gear v a c =
      some [(16 * v + gear) % 256,
            (16 * v + gear) / 256 % 256,
            (16 * v + gear) / 65536 % 256 + (a % 65536).toNat % 256 % 16 * 16,
            (a % 65536).toNat / 256 % 16 * 16 + (a % 65536).toNat % 256 / 16,
            (a % 65536).toNat / 256 / 16 % 16,
            0,
            c % 256,
            bcc [(16 * v + gear) % 256,
                 (16 * v + gear) / 256 % 256,
                 (16 * v + gear) / 65536 % 256 + (a % 65536).toNat % 256 % 16 * 16,
                 (a % 65536).toNat / 256 % 16 * 16 + (a % 65536).toNat % 256 / 16,
                 (a % 65536).toNat / 256 / 16 % 16,
                 0,
                 c % 256]] := by
  have hraw : (v <<< 4) ||| (gear &&& 0x0F) = 16 * v + gear := by
    rw [and15, Nat.mod_eq_of_lt (by omega), Nat.shiftLeft_eq]
    rw [or_eq_add_of_dvd 4 (v * 2 ^ 4) gear (dvd_mul_left _ _) (by omega)]
    omega
  simp only [build_vehicle_control_data]
  rw [hraw]
  rw [if_pos ⟨by omega, ha1, ha2⟩]
  have h0 : (16 * v + gear) &&& 0xFF = (16 * v + gear) % 256 := and255 _
  have h1 : ((16 * v + gear) >>> 8) &&& 0xFF = (16 * v + gear) / 256 % 256 := by
    rw [shr8, and255]
  have h2 : ((16 * v + gear) >>> 16) &&& 0xFF |||
      ((((a % 65536).toNat &&& 0xFF) &&& 0x0F) <<< 4) =
      (16 * v + gear) / 65536 % 256 + (a % 65536).toNat % 256 % 16 * 16 := by
    rw [shr16, and255, and255, and15]
    rw [or_eq_add_shl' 4 _ _ (by omega)]
    rw [Nat.shiftLeft_eq]
  have h3 : ((((a % 65536).toNat >>> 8) &&& 0x0F) <<< 4) |||
      (((a % 65536).toNat &&& 0xFF) >>> 4) =
      (a % 65536).toNat / 256 % 16 * 16 + (a % 65536).toNat % 256 / 16 := by
    rw [shr8, and15, and255, shr4]
    rw [or_eq_add_shl 4 _ _ (by omega)]
    rw [Nat.shiftLeft_eq]
  have h4 : (((a % 65536).toNat >>> 8) >>> 4) &&& 0x0F =
      (a % 65536).toNat / 256 / 16 % 16 := by
    rw [shr8, shr4, and15]
  have h6 : c &&& 0xFF = c % 256 := and255 c
  rw [h0, h1, h2, h3, h4, h6]
  rfl

/-- Evaluation of the decoder on an explicit 8-byte list, in arithmetic form. -/
theorem parse_vehicle_bytes (d0 d1 d2 d3 d4 d5 d6 d7 : Nat)
    (h0 : d0 < 256) (h1 : d1 < 256) :
    parse_vehicle_control_data [d0, d1, d2, d3, d4, d5, d6, d7] =
      some { data_hex := bytesHexUpper [d0, d1, d2, d3, d4, d5, d6, d7]
             gear_raw := d0 % 16
             gear_name := gearName (d0 % 16)
             linear_velocity_mms := (d0 + 256 * d1 + 65536 * d2) / 16 % 65536
             steering_angle_raw := toI16 (256 * (d4 % 16 * 16 + d3 / 16 % 16) +
               (d3 % 16 * 16 + d2 / 16 % 16)) } := by
  simp only [parse_vehicle_control_data, List.getD_cons_zero, List.getD_cons_succ]
  rw [if_neg (by simp)]
  have hg : d0 &&& 0x0F = d0 % 16 := and15 d0
  have hs : d0 ||| (d1 <<< 8) ||| (d2 <<< 16) = d0 + 256 * d1 + 65536 * d2 := by
    rw [or_eq_add_shl' 8 d0 d1 (by omega)]
    rw [or_eq_add_shl' 16 (d0 + d1 <<< 8) d2 (by rw [Nat.shiftLeft_eq]; omega)]
    simp only [Nat.shiftLeft_eq]
    omega
  have hhigh : ((d4 &&& 0x0F) <<< 4) ||| ((d3 >>> 4) &&& 0x0F) =
      d4 % 16 * 16 + d3 / 16 % 16 := by
    rw [and15, shr4, and15]
    rw [or_eq_add_shl 4 _ _ (by omega)]
    rw [Nat.shiftLeft_eq]
  have hlow : ((d3 &&& 0x0F) <<< 4) ||| ((d2 >>> 4) &&& 0x0F) =
      d3 % 16 * 16 + d2 / 16 % 16 := by
    rw [and15, shr4, and15]
    rw [or_eq_add_shl 4 _ _ (by omega)]
    rw [Nat.shiftLeft_eq]
  rw [hg, hs, and_FFFF0_shr4, hhigh, hlow]
  have hangle : ((d4 % 16 * 16 + d3 / 16 % 16) <<< 8) |||
      (d3 % 16 * 16 + d2 / 16 % 16) =
      256 * (d4 % 16 * 16 + d3 / 16 % 16) + (d3 % 16 * 16 + d2 / 16 % 16) := by
    rw [or_eq_add_shl 8 _ _ (by omega)]
    rw [Nat.shiftLeft_eq]
    omega
  rw [hangle]

/-- Claim C1 (amended): decoding an encoded payload recovers the gear, the
velocity (as an unsigned 16-bit value) and the steering angle; the decoder
returns NO alive-counter field — the alive counter survives only as byte 6 of
the payload (and inside the echoed `data_hex` string). -/
theorem vehicle_control_roundtrip (gear v : Nat) (a : Int) (c : Nat)
    (hg : gear ≤ 15) (hv : v ≤ 65535) (ha1 : -32768 ≤ a) (ha2 : a ≤ 32767)
    (hc : c ≤ 255) :
    ∃ p r, build_vehicle_control_data gear v a c = some p ∧
      parse_vehicle_control_data p = some r ∧
      r.gear_raw = gear ∧
      r.linear_velocity_mms = v ∧
      r.steering_angle_raw = a ∧
      p.getD 6 0 = c := by
  rw [build_vehicle_bytes gear v a c hg hv ha1 ha2]
  refine ⟨_, _, rfl,
    parse_vehicle_bytes _ _ _ _ _ _ _ _ (by omega) (by omega), ?_, ?_, ?_, ?_⟩
  · -- gear
    show (16 * v + gear) % 256 % 16 = gear
    omega
  · -- velocity
    show ((16 * v + gear) % 256 + 256 * ((16 * v + gear) / 256 % 256) +
      65536 * ((16 * v + gear) / 65536 % 256 + (a % 65536).toNat % 256 % 16 * 16)) /
        16 % 65536 = v
    omega
  · -- steering angle
    show toI16 (256 * ((a % 65536).toNat / 256 / 16 % 16 % 16 * 16 +
        ((a % 65536).toNat / 256 % 16 * 16 + (a % 65536).toNat % 256 / 16) / 16 % 16) +
      (((a % 65536).toNat / 256 % 16 * 16 + (a % 65536).toNat % 256 / 16) % 16 * 16 +
        ((16 * v + gear) / 65536 % 256 + (a % 65536).toNat % 256 % 16 * 16) / 16 % 16)) = a
    rw [show (256 * ((a % 65536).toNat / 256 / 16 % 16 % 16 * 16 +
        ((a % 65536).toNat / 256 % 16 * 16 + (a % 65536).toNat % 256 / 16) / 16 % 16) +
      (((a % 65536).toNat / 256 % 16 * 16 + (a % 65536).toNat % 256 / 16) % 16 * 16 +
        ((16 * v + gear) / 65536 % 256 + (a % 65536).toNat % 256 % 16 * 16) / 16 % 16)) =
      (a % 65536).toNat from by omega]
    unfold toI16
    split <;> omega
  · -- alive counter sits in byte 6
    show ([(16 * v + gear) % 256, (16 * v + gear) / 256 % 256,
      (16 * v + gear) / 65536 % 256 + (a % 65536).toNat % 256 % 16 * 16,
      (a % 65536).toNat / 256 % 16 * 16 + (a % 65536).toNat % 256 / 16,
      (a % 65536).toNat / 256 / 16 % 16, 0, c % 256,
      bcc [(16 * v + gear) % 256, (16 * v + gear) / 256 % 256,
        (16 * v + gear) / 65536 % 256 + (a % 65536).toNat % 256 % 16 * 16,
        (a % 65536).toNat / 256 % 16 * 16 + (a % 65536).toNat % 256 / 16,
        (a % 65536).toNat / 256 / 16 % 16, 0, c % 256]]).getD 6 0 = c
    simp only [List.getD_cons_succ, List.getD_cons_zero]
    omega

/-- Witness for C1 at the golden input. -/
theorem vehicle_control_roundtrip_witness :
    ((4 : Nat) ≤ 15 ∧ (3000 : Nat) ≤ 65535 ∧ (-32768 : Int) ≤ -95 ∧
      (-95 : Int) ≤ 32767 ∧ (0 : Nat) ≤ 255) ∧
    ∃ p r, build_vehicle_control_data 4 3000 (-95) 0 = some p ∧
      parse_vehicle_control_data p = some r ∧
      r.gear_raw = 4 ∧
      r.linear_velocity_mms = 3000 ∧
      r.steering_angle_raw = -95 ∧
      p.getD 6 0 = 0 :=
  ⟨⟨by decide, by decide, by decide, by decide, by decide⟩,
   vehicle_control_roundtrip 4 3000 (-95) 0 (by decide) (by decide) (by decide)
     (by decide) (by decide)⟩

/-- Counterexample to claim C1 as stated: two encoder calls differing only in
the alive counter (0 versus 7) decode to results that agree on every decoded
control field (gear, gear name, velocity, steering angle), so no decoded
field recovers the alive counter. -/
theorem vehicle_control_roundtrip_counterexample :
    build_vehicle_control_data 4 3000 (-95) 0 =
      some [0x84, 0xBB, 0x10, 0xFA, 0x0F, 0x00, 0x00, 0xDA] ∧
    build_vehicle_control_data 4 3000 (-95) 7 =
      some [0x84, 0xBB, 0x10, 0xFA, 0x0F, 0x00, 0x07, 0xDD] ∧
    (0 : Nat) ≠ 7 ∧
    (parse_vehicle_control_data [0x84, 0xBB, 0x10, 0xFA, 0x0F, 0x00, 0x00, 0xDA]).map
        VehicleControlParse.gear_raw =
      (parse_vehicle_control_data [0x84, 0xBB, 0x10, 0xFA, 0x0F, 0x00, 0x07, 0xDD]).map
        VehicleControlParse.gear_raw ∧
    (parse_vehicle_control_data [0x84, 0xBB, 0x10, 0xFA, 0x0F, 0x00, 0x00, 0xDA]).map
        VehicleControlParse.gear_name =
      (parse_vehicle_control_data [0x84, 0xBB, 0x10, 0xFA, 0x0F, 0x00, 0x07, 0xDD]).map
        VehicleControlParse.gear_name ∧
    (parse_vehicle_control_data [0x84, 0xBB, 0x10, 0xFA, 0x0F, 0x00, 0x00, 0xDA]).map
        VehicleControlParse.linear_velocity_mms =
      (parse_vehicle_control_data [0x84, 0xBB, 0x10, 0xFA, 0x0F, 0x00, 0x07, 0xDD]).map
        VehicleControlParse.linear_velocity_mms ∧
    (parse_vehicle_control_data [0x84, 0xBB, 0x10, 0xFA, 0x0F, 0x00, 0x00, 0xDA]).map
        VehicleControlParse.steering_angle_raw =
      (parse_vehicle_control_data [0x84, 0xBB, 0x10, 0xFA, 0x0F, 0x00, 0x07, 0xDD]).map
        VehicleControlParse.steering_angle_raw := by
  refine ⟨by decide, by decide, by decide, by decide, by decide, by decide, by decide⟩

/-- Claim C10: on every in-range input the encoder terminates with exactly 8
bytes, each below 256; byte 2 combines the two fields in disjoint nibbles —
its low nibble is bits 12..15 of the velocity and its high nibble is the low
nibble of the angle's low byte — so neither field clobbers the other. -/
theorem vehicle_encoder_safety (gear v : Nat) (a : Int) (c : Nat)
    (hg : gear ≤ 15) (hv : v ≤ 65535) (ha1 : -32768 ≤ a) (ha2 : a ≤ 32767)
    (hc : c ≤ 255) :
    ∃ p, build_vehicle_control_data gear v a c = some p ∧
      p.length = 8 ∧ (∀ b ∈ p, b < 256) ∧
      p.getD 2 0 &&& 0x0F = v >>> 12 ∧
      p.getD 2 0 >>> 4 = (a % 65536).toNat &&& 0x0F := by
  rw [build_vehicle_bytes gear v a c hg hv ha1 ha2]
  refine ⟨_, rfl, by simp, ?_, ?_, ?_⟩
  · intro b hb
    simp only [List.mem_cons, List.not_mem_nil, or_false] at hb
    rcases hb with rfl | rfl | rfl | rfl | rfl | rfl | rfl | rfl
    · omega
    · omega
    · omega
    · omega
    · omega
    · omega
    · omega
    · rw [bcc_seven]
      exact xor_byte_lt _ _ (xor_byte_lt _ _ (xor_byte_lt _ _ (xor_byte_lt _ _
        (xor_byte_lt _ _ (xor_byte_lt _ _ (by omega) (by omega)) (by omega))
        (by omega)) (by omega)) (by omega)) (by omega)
  · simp only [List.getD_cons_succ, List.getD_cons_zero]
    rw [and15, shr12]
    omega
  · simp only [List.getD_cons_succ, List.getD_cons_zero]
    rw [shr4, and15]
    omega

/-- Witness for C10 at the golden input. -/
theorem vehicle_encoder_safety_witness :
    ((4 : Nat) ≤ 15 ∧ (3000 : Nat) ≤ 65535 ∧ (-32768 : Int) ≤ -95 ∧
      (-95 : Int) ≤ 32767 ∧ (0 : Nat) ≤ 255) ∧
    ∃ p, build_vehicle_control_data 4 3000 (-95) 0 = some p ∧
      p.length = 8 ∧ (∀ b ∈ p, b < 256) ∧
      p.getD 2 0 &&& 0x0F = 3000 >>> 12 ∧
      p.getD 2 0 >>> 4 = ((-95 : Int) % 65536).toNat &&& 0x0F :=
  ⟨⟨by decide, by decide, by decide, by decide, by decide⟩,
   vehicle_encoder_safety 4 3000 (-95) 0 (by decide) (by decide) (by decide)
     (by decide) (by decide)⟩

/-- Core checksum fact: a 7-byte body followed by its BCC verifies, and
flipping any single bit of any body byte breaks verification. -/
theorem verify_flip_core (x0 x1 x2 x3 x4 x5 x6 : Nat) :
    ([x0, x1, x2, x3, x4, x5, x6, bcc [x0, x1, x2, x3, x4, x5, x6]] : List Nat).getD 7 0 =
      bcc (([x0, x1, x2, x3, x4, x5, x6, bcc [x0, x1, x2, x3, x4, x5, x6]] : List Nat).take 7) ∧
    verify_checksum [x0, x1, x2, x3, x4, x5, x6, bcc [x0, x1, x2, x3, x4, x5, x6]] = true ∧
    ∀ i < 7, ∀ k < 8, verify_checksum
      (([x0, x1, x2, x3, x4, x5, x6, bcc [x0, x1, x2, x3, x4, x5, x6]] : List Nat).set i
        (([x0, x1, x2, x3, x4, x5, x6, bcc [x0, x1, x2, x3, x4, x5, x6]] : List Nat).getD i 0 ^^^
          (1 <<< k))) = false := by
  have hm : ∀ k : Nat, 1 <<< k ≠ 0 := by
    intro k
    have := Nat.two_pow_pos k
    rw [Nat.shiftLeft_eq]
    omega
  refine ⟨rfl, by simp [verify_checksum], ?_⟩
  intro i hi k hk
  interval_cases i
  · show verify_checksum [x0 ^^^ (1 <<< k), x1, x2, x3, x4, x5, x6,
      bcc [x0, x1, x2, x3, x4, x5, x6]] = false
    simp only [verify_checksum, bcc_seven, List.take_succ_cons, List.take_zero,
      List.getD_cons_succ, List.getD_cons_zero, Bool.and_eq_false_imp, beq_iff_eq,
      beq_eq_false_iff_ne]
    intro
    rw [show (x0 ^^^ (1 <<< k)) ^^^ x1 ^^^ x2 ^^^ x3 ^^^ x4 ^^^ x5 ^^^ x6 =
      (x0 ^^^ x1 ^^^ x2 ^^^ x3 ^^^ x4 ^^^ x5 ^^^ x6) ^^^ (1 <<< k) from by
        simp [Nat.xor_assoc, Nat.xor_comm, xor_left_comm]]
    exact xor_ne_self _ _ (hm k)
  · show verify_checksum [x0, x1 ^^^ (1 <<< k), x2, x3, x4, x5, x6,
      bcc [x0, x1, x2, x3, x4, x5, x6]] = false
    simp only [verify_checksum, bcc_seven, List.take_succ_cons, List.take_zero,
      List.getD_cons_succ, List.getD_cons_zero, Bool.and_eq_false_imp, beq_iff_eq,
      beq_eq_false_iff_ne]
    intro
    rw [show x0 ^^^ (x1 ^^^ (1 <<< k)) ^^^ x2 ^^^ x3 ^^^ x4 ^^^ x5 ^^^ x6 =
      (x0 ^^^ x1 ^^^ x2 ^^^ x3 ^^^ x4 ^^^ x5 ^^^ x6) ^^^ (1 <<< k) from by
        simp [Nat.xor_assoc, Nat.xor_comm, xor_left_comm]]
    exact xor_ne_self _ _ (hm k)
  · show verify_checksum [x0, x1, x2 ^^^ (1 <<< k), x3, x4, x5, x6,
      bcc [x0, x1, x2, x3, x4, x5, x6]] = false
    simp only [verify_checksum, bcc_seven, List.take_succ_cons, List.take_zero,
      List.getD_cons_succ, List.getD_cons_zero, Bool.and_eq_false_imp, beq_iff_eq,
      beq_eq_false_iff_ne]
    intro
    rw [show x0 ^^^ x1 ^^^ (x2 ^^^ (1 <<< k)) ^^^ x3 ^^^ x4 ^^^ x5 ^^^ x6 =
      (x0 ^^^ x1 ^^^ x2 ^^^ x3 ^^^ x4 ^^^ x5 ^^^ x6) ^^^ (1 <<< k) from by
        simp [Nat.xor_assoc, Nat.xor_comm, xor_left_comm]]
    exact xor_ne_self _ _ (hm k)
  · show verify_checksum [x0, x1, x2, x3 ^^^ (1 <<< k), x4, x5, x6,
      bcc [x0, x1, x2, x3, x4, x5, x6]] = false
    simp only [verify_checksum, bcc_seven, List.take_succ_cons, List.take_zero,
      List.getD_cons_succ, List.getD_cons_zero, Bool.and_eq_false_imp, beq_iff_eq,
      beq_eq_false_iff_ne]
    intro
    rw [show x0 ^^^ x1 ^^^ x2 ^^^ (x3 ^^^ (1 <<< k)) ^^^ x4 ^^^ x5 ^^^ x6 =
      (x0 ^^^ x1 ^^^ x2 ^^^ x3 ^^^ x4 ^^^ x5 ^^^ x6) ^^^ (1 <<< k) from by
        simp [Nat.xor_assoc, Nat.xor_comm, xor_left_comm]]
    exact xor_ne_self _ _ (hm k)
  · show verify_checksum [x0, x1, x2, x3, x4 ^^^ (1 <<< k), x5, x6,
      bcc [x0, x1, x2, x3, x4, x5, x6]] = false
    simp only [verify_checksum, bcc_seven, List.take_succ_cons, List.take_zero,
      List.getD_cons_succ, List.getD_cons_zero, Bool.and_eq_false_imp, beq_iff_eq,
      beq_eq_false_iff_ne]
    intro
    rw [show x0 ^^^ x1 ^^^ x2 ^^^ x3 ^^^ (x4 ^^^ (1 <<< k)) ^^^ x5 ^^^ x6 =
      (x0 ^^^ x1 ^^^ x2 ^^^ x3 ^^^ x4 ^^^ x5 ^^^ x6) ^^^ (1 <<< k) from by
        simp [Nat.xor_assoc, Nat.xor_comm, xor_left_comm]]
    exact xor_ne_self _ _ (hm k)
  · show verify_checksum [x0, x1, x2, x3, x4, x5 ^^^ (1 <<< k), x6,
      bcc [x0, x1, x2, x3, x4, x5, x6]] = false
    simp only [verify_checksum, bcc_seven, List.take_succ_cons, List.take_zero,
      List.getD_cons_succ, List.getD_cons_zero, Bool.and_eq_false_imp, beq_iff_eq,
      beq_eq_false_iff_ne]
    intro
    rw [show x0 ^^^ x1 ^^^ x2 ^^^ x3 ^^^ x4 ^^^ (x5 ^^^ (1 <<< k)) ^^^ x6 =
      (x0 ^^^ x1 ^^^ x2 ^^^ x3 ^^^ x4 ^^^ x5 ^^^ x6) ^^^ (1 <<< k) from by
        simp [Nat.xor_assoc, Nat.xor_comm, xor_left_comm]]
    exact xor_ne_self _ _ (hm k)
  · show verify_checksum [x0, x1, x2, x3, x4, x5, x6 ^^^ (1 <<< k),
      bcc [x0, x1, x2, x3, x4, x5, x6]] = false
    simp only [verify_checksum, bcc_seven, List.take_succ_cons, List.take_zero,
      List.getD_cons_succ, List.getD_cons_zero, Bool.and_eq_false_imp, beq_iff_eq,
      beq_eq_false_iff_ne]
    intro
    rw [show x0 ^^^ x1 ^^^ x2 ^^^ x3 ^^^ x4 ^^^ x5 ^^^ (x6 ^^^ (1 <<< k)) =
      (x0 ^^^ x1 ^^^ x2 ^^^ x3 ^^^ x4 ^^^ x5 ^^^ x6) ^^^ (1 <<< k) from by
        simp [Nat.xor_assoc, Nat.xor_comm, xor_left_comm]]
    exact xor_ne_self _ _ (hm k)

/-- Claim C5: every payload produced by the encoder has byte 7 equal to the
XOR of bytes 0 through 6, `verify_checksum` accepts it, and flipping any
single bit of any of bytes 0..6 makes `verify_checksum` reject it. -/
theorem vehicle_checksum_verify (gear v : Nat) (a : Int) (c : Nat) (p : List Nat)
    (hp : build_vehicle_control_data gear v a c = some p) :
    p.getD 7 0 = bcc (p.take 7) ∧
    verify_checksum p = true ∧
    ∀ i < 7, ∀ k < 8,
      verify_checksum (p.set i (p.getD i 0 ^^^ (1 <<< k))) = false := by
  simp only [build_vehicle_control_data] at hp
  split at hp
  · obtain rfl : _ = p := (Option.some.injEq _ _).mp hp
    exact verify_flip_core _ _ _ _ _ _ _
  · cases hp

/-- Witness for C5 at the golden payload. -/
theorem vehicle_checksum_verify_witness :
    verify_checksum [0x84, 0xBB, 0x10, 0xFA, 0x0F, 0x00, 0x00, 0xDA] = true ∧
    verify_checksum (([0x84, 0xBB, 0x10, 0xFA, 0x0F, 0x00, 0x00, 0xDA] : List Nat).set 0
      (([0x84, 0xBB, 0x10, 0xFA, 0x0F, 0x00, 0x00, 0xDA] : List Nat).getD 0 0 ^^^
        (1 <<< 3))) = false := by
  obtain ⟨-, h2, h3⟩ :=
    vehicle_checksum_verify 4 3000 (-95) 0
      [0x84, 0xBB, 0x10, 0xFA, 0x0F, 0x00, 0x00, 0xDA] (by decide)
  exact ⟨h2, h3 0 (by decide) 3 (by decide)⟩
